import Mathlib

/-!
Verification development for the nahida dataflow-graph execution engine.

The definitions below are a shallow embedding of the core modules
(`nahida/core/context.py`, `nahida/core/expr.py`, `nahida/core/scheduler.py`,
`nahida/core/node.py`, `nahida/core/graph.py`).  Python values are modelled by
an inductive `Value`, Python exceptions by `PyErr`, contexts by association
lists from handles to cells, and the sandboxed/registered callables of
formula and function expressions by opaque Lean functions over values (they
never receive the context in the source).  Fallible Python code is embedded
as `Except PyErr`-valued functions.
-/

namespace Nahida

/-- Model of Python runtime values flowing through contexts and expressions:
integers, strings, booleans, `None`, sequences and mappings. -/
inductive Value where
  | int (n : Int)
  | str (s : String)
  | bool (b : Bool)
  | none
  | list (vs : List Value)
  | dict (kvs : List ((Int ⊕ String) × Value))

/-- Model of the Python exceptions that can cross the module boundaries of the
source: the four expression-layer errors of `nahida/core/errors.py`
(`DataNotFoundError`, `DataGetItemError`, `UnionError`, `ExprEvalError`),
`SubscribeError`, and the relevant builtin exceptions (`KeyError`,
`IndexError`, `TypeError`, `ValueError`, and a catch-all for others). -/
inductive PyErr where
  | dataNotFound (uid : Nat)
  | dataGetItem
  | unionError
  | exprEval
  | subscribeError
  | keyError
  | indexError
  | typeError
  | valueError
  | otherExc (tag : String)
deriving DecidableEq, Repr

/-- Python truthiness (`bool(v)`), as used by `Branch.order`. -/
def Value.truth : Value → Bool
  | .int n => n != 0
  | .str s => s ≠ ""
  | .bool b => b
  | .none => false
  | .list vs => !vs.isEmpty
  | .dict kvs => !kvs.isEmpty

/-- Conversion of a value to a dictionary key (ints, strings, and bools, which
hash as ints in Python); other values are unhashable here. -/
def Value.asKey : Value → Option (Int ⊕ String)
  | .int n => some (Sum.inl n)
  | .str s => some (Sum.inr s)
  | .bool b => some (Sum.inl (if b then 1 else 0))
  | _ => Option.none

/-- Python sequence indexing with negative-index support; out-of-range raises
`IndexError`. -/
def pySeqGet (vs : List Value) (i : Int) : Except PyErr Value :=
  let j := if i < 0 then i + vs.length else i
  if j < 0 then .error .indexError
  else
    match vs.get? j.toNat with
    | some v => .ok v
    | Option.none => .error .indexError

/-- Python subscription `v[item]`: mappings raise `KeyError` on a missing key,
sequences raise `IndexError` out of range, everything else `TypeError`. -/
def Value.getitem : Value → Value → Except PyErr Value
  | .list vs, .int i => pySeqGet vs i
  | .list vs, .bool b => pySeqGet vs (if b then 1 else 0)
  | .list _, _ => .error .typeError
  | .dict kvs, idx =>
    match idx.asKey with
    | some k =>
      match kvs.find? (fun p => p.1 = k) with
      | some p => .ok p.2
      | Option.none => .error .keyError
    | Option.none => .error .typeError
  | _, _ => .error .typeError

/-- `SimpleDataRef` from `nahida/core/context.py`: a cell that is either empty
or holds a value. -/
structure Cell where
  value : Option Value

/-- `SimpleDataRef.get()` with no item: `ValueError` when the cell is empty. -/
def Cell.get (c : Cell) : Except PyErr Value :=
  match c.value with
  | Option.none => .error .valueError
  | some v => .ok v

/-- `SimpleDataRef.get(item)`: `ValueError` when empty, otherwise the Python
subscription `value[item]`. -/
def Cell.getWithItem (c : Cell) (item : Value) : Except PyErr Value :=
  match c.value with
  | Option.none => .error .valueError
  | some v => v.getitem item

/-- `Context` from `nahida/core/context.py`: a mapping from handles (uids) to
data cells, embedded as an association list with first-match lookup. -/
structure Context where
  data : List (Nat × Cell)

/-- The empty context (`Context()`). -/
def Context.empty : Context := ⟨[]⟩

/-- `Context.__getitem__`: raises `KeyError` when the handle is absent. -/
def Context.getitem (ctx : Context) (uid : Nat) : Except PyErr Cell :=
  match ctx.data.find? (fun p => p.1 == uid) with
  | some p => .ok p.2
  | Option.none => .error .keyError

/-- `Context.__setitem__`: bind a cell under a handle, replacing any previous
binding. -/
def Context.setItem (ctx : Context) (uid : Nat) (c : Cell) : Context :=
  ⟨(uid, c) :: ctx.data.filter (fun p => p.1 != uid)⟩

/-- `Context.view(uids)`: the projection of the context onto the given handle
set; absent handles are silently skipped and cells are shared. -/
def Context.view (ctx : Context) (uids : List Nat) : Context :=
  ⟨ctx.data.filter (fun p => uids.contains p.1)⟩

/-- The table of registered callables, `Executor._callable_registry`: an
integer id mapped to a callable over evaluated positional and keyword
arguments.  The callables never receive the context. -/
abbrev Registry := List (Nat × (List Value → List (String × Value) → Except PyErr Value))

mutual
/-- The expression algebra of `nahida/core/expr.py`.  `ref` covers `RefExpr`
and `VariableExpr`, whose `eval` bodies are identical; `varGetItem` is
`VariableGetItemExpr`; `getItem` is `GetItemExpr`; `union` is `UnionExpr`
(holding its already-flattened member list `_exprs`); `formula` is
`FormulaExpr` with the sandboxed textual evaluation abstracted as an opaque
function of the local bindings (the sandbox cannot read the context);
`func` is `FunctionExpr`. -/
inductive Expr where
  | const (v : Value)
  | ref (uid : Nat)
  | varGetItem (uid : Nat) (index : Expr)
  | getItem (e : Expr) (index : Expr)
  | union (es : ExprList)
  | formula (f : List (String × Value) → Except PyErr Value) (locals : KwList)
  | func (fid : Nat) (args : ExprList) (kwargs : KwList)
inductive ExprList where
  | nil
  | cons (e : Expr) (rest : ExprList)
inductive KwList where
  | nil
  | cons (name : String) (e : Expr) (rest : KwList)
end

/-- Member list of an `ExprList` as a plain Lean list. -/
def ExprList.toList : ExprList → List Expr
  | .nil => []
  | .cons e rest => e :: rest.toList

/-- Concatenation of member lists (used to talk about a member's position
inside a union). -/
def ExprList.append : ExprList → ExprList → ExprList
  | .nil, ys => ys
  | .cons e rest, ys => .cons e (rest.append ys)

/-- The `except (DataNotFoundError, DataGetItemError, ExprEvalError)` clause of
`UnionExpr.eval`: exactly the three expression-layer error kinds are caught. -/
def unionCatches : PyErr → Bool
  | .dataNotFound _ => true
  | .dataGetItem => true
  | .exprEval => true
  | _ => false

/-- An `except KeyError` handler converting the caught error into
`DataNotFoundError(uid)`, as in `RefExpr.eval`, `VariableExpr.eval` and
`VariableGetItemExpr.eval`. -/
def catchKeyError (uid : Nat) (r : Except PyErr Value) : Except PyErr Value :=
  match r with
  | .error .keyError => .error (.dataNotFound uid)
  | r => r

/-- Registry lookup by function id (`Executor._callable_registry[fid]`). -/
def Registry.find (reg : Registry) (fid : Nat) :
    Option (List Value → List (String × Value) → Except PyErr Value) :=
  match reg.find? (fun p => p.1 == fid) with
  | some p => some p.2
  | Option.none => Option.none

mutual

/-- `Expr.eval` for every expression variant, transcribed from
`nahida/core/expr.py`.  Note that in `formula` and `func` the binding and
argument sub-expressions are evaluated OUTSIDE the `try` block of the source,
so their failures propagate unchanged, while the sandbox call, the registry
lookup and the callable invocation are inside it and fail as `ExprEvalError`. -/
def Expr.eval (reg : Registry) (ctx : Context) : Expr → Except PyErr Value
  | .const v => .ok v
  | .ref uid =>
    catchKeyError uid (do
      let cell ← ctx.getitem uid
      cell.get)
  | .varGetItem uid index =>
    catchKeyError uid (do
      let i ← Expr.eval reg ctx index
      let cell ← ctx.getitem uid
      cell.getWithItem i)
  | .getItem e index => do
    let v ← Expr.eval reg ctx e
    let i ← Expr.eval reg ctx index
    match v.getitem i with
    | .error _ => .error .dataGetItem
    | .ok r => .ok r
  | .union es => evalUnionMembers reg ctx es
  | .formula f locals => do
    let vars ← evalKws reg ctx locals
    match f vars with
    | .error _ => .error .exprEval
    | .ok v => .ok v
  | .func fid args kwargs => do
    let as ← evalArgs reg ctx args
    let kws ← evalKws reg ctx kwargs
    match reg.find fid with
    | Option.none => .error .exprEval
    | some fn =>
      match fn as kws with
      | .error _ => .error .exprEval
      | .ok v => .ok v

/-- The member loop of `UnionExpr.eval`: return the first member that
evaluates successfully, skipping members that fail with one of the three
caught error kinds; raise `UnionError` when the members are exhausted. -/
def evalUnionMembers (reg : Registry) (ctx : Context) : ExprList → Except PyErr Value
  | .nil => .error .unionError
  | .cons e rest =>
    match Expr.eval reg ctx e with
    | .ok v => .ok v
    | .error err => if unionCatches err then evalUnionMembers reg ctx rest else .error err

/-- Evaluation of positional argument lists (`[arg.eval(context) for arg in
self._args]`); the first failure aborts. -/
def evalArgs (reg : Registry) (ctx : Context) : ExprList → Except PyErr (List Value)
  | .nil => .ok []
  | .cons e rest => do
    let v ← Expr.eval reg ctx e
    let vs ← evalArgs reg ctx rest
    .ok (v :: vs)

/-- Evaluation of keyword binding lists (`{name: value.eval(context) ...}`);
the first failure aborts. -/
def evalKws (reg : Registry) (ctx : Context) : KwList → Except PyErr (List (String × Value))
  | .nil => .ok []
  | .cons name e rest => do
    let v ← Expr.eval reg ctx e
    let vs ← evalKws reg ctx rest
    .ok ((name, v) :: vs)
end

mutual

/-- `Expr.refs`, transcribed from the source: the handles an expression
depends on.  Python returns a set; here a list whose membership is the set. -/
def Expr.refs : Expr → List Nat
  | .const _ => []
  | .ref uid => [uid]
  | .varGetItem uid index => uid :: index.refs
  | .getItem e index => e.refs ++ index.refs
  | .union es => refsOfList es
  | .formula _ locals => refsOfKws locals
  | .func _ args kwargs => refsOfList args ++ refsOfKws kwargs

/-- Union of `refs` over a member list. -/
def refsOfList : ExprList → List Nat
  | .nil => []
  | .cons e rest => e.refs ++ refsOfList rest

/-- Union of `refs` over a keyword binding list. -/
def refsOfKws : KwList → List Nat
  | .nil => []
  | .cons _ e rest => e.refs ++ refsOfKws rest
end

/-! ## The concurrent scheduler (`nahida/core/scheduler.py`)

Node activation coroutines are embedded as the stream of order items the
generator will yield (`next` pops the head; an empty stream is
`StopIteration`).  Downstream recruits are node uids resolved through an
activation table, mirroring `nxt.activate(...)` on the recruited node
objects.  Executor events are consumed from a given event list
(`executor.wait()` pops the head), so a run is parameterised by an arbitrary
event schedule. -/

/-- `FlowControl` from `nahida/core/scheduler.py`. -/
inductive FlowControl where
  | protNone
  | protEnter
  | protExit
deriving DecidableEq, Repr

/-- The `OrderItem` dataclass of `nahida/core/scheduler.py`.  Its fields are
exactly `uid`, `context`, `source`, `args`, `kwargs`, `recruit` and
`control`; the `context` field defaults to a FRESH empty `Context` (the
`default_factory`), and despite its docstring the dataclass declares no
`release`, `recall` or `exit` field. -/
structure OrderItem where
  uid : Nat
  ctx : Context := Context.empty
  source : Option (Nat ⊕ String) := Option.none
  args : List Expr := []
  kwargs : List (String × Expr) := []
  recruit : List Nat := []
  control : FlowControl := FlowControl.protNone

/-- The field names declared by the `OrderItem` dataclass (its `slots`). -/
def orderItemFields : List String :=
  ["uid", "context", "source", "args", "kwargs", "recruit", "control"]

/-- The keyword arguments `Repeat.Iter.order` passes to the `OrderItem`
constructor in `nahida/core/node.py` besides the positional uid. -/
def repeatIterOrderKeywords : List String :=
  ["release", "recruit", "control", "recall"]

/-- Python dataclass calling convention: the constructor accepts a keyword
argument only if it names a declared field; any other keyword raises
`TypeError`. -/
def dataclassCallAccepts (fields kwargs : List String) : Bool :=
  kwargs.all (fun k => fields.contains k)

/-- A node activation coroutine, embedded as the list of order items the
generator still has to yield. -/
abbrev Coro := List OrderItem

/-- `NodeScope` from `nahida/core/scheduler.py`. -/
structure NodeScope where
  count : Int := 1
  recallCo : Option Coro := Option.none
  backId : Option Nat := Option.none
  cancelled : Bool := false

/-- Errors that abort a forward pass in the embedding: Python exceptions
escaping the scheduler loop (`KeyError` on an invalid scope or task id,
`RuntimeError` on cancelling the root scope, a failed assertion in
`get_recall`), plus markers for situations outside the modelled fragment
(an unknown recruited node; `executor.wait()` with no event left). -/
inductive SchedErr where
  | invalidScope (i : Nat)
  | cancelRootScope
  | recallAssertFailed
  | unknownTask
  | unknownNode (uid : Nat)
  | noPendingEvent
deriving DecidableEq, Repr

/-- `ScopeManager` state: the scope-id counter and the scope table. -/
structure ScopeManager where
  scopeCount : Nat
  table : List (Nat × NodeScope)

/-- `ScopeManager.__init__(num_starters)`: scope 0 holds the starters. -/
def ScopeManager.init (numStarters : Nat) : ScopeManager :=
  ⟨1, [(0, { count := (numStarters : Int) })]⟩

/-- Table lookup, `self.scope_table[item]`. -/
def ScopeManager.find (sm : ScopeManager) (i : Nat) : Option NodeScope :=
  match sm.table.find? (fun p => p.1 == i) with
  | some p => some p.2
  | Option.none => Option.none

/-- Replace a scope entry. -/
def ScopeManager.set (sm : ScopeManager) (i : Nat) (sc : NodeScope) : ScopeManager :=
  ⟨sm.scopeCount, (i, sc) :: sm.table.filter (fun p => p.1 != i)⟩

/-- `create_scope(back_id, recall)`: a fresh scope with count 0. -/
def ScopeManager.createScope (sm : ScopeManager) (backId : Nat) (rc : Coro) :
    Nat × ScopeManager :=
  let newId := sm.scopeCount
  (newId, ⟨sm.scopeCount + 1,
    (newId, { count := 0, recallCo := some rc, backId := some backId }) :: sm.table⟩)

/-- `on_node_complete(scope_id)`: `count -= 1`; `KeyError` on a missing id. -/
def ScopeManager.onNodeComplete (sm : ScopeManager) (i : Nat) : Except SchedErr ScopeManager :=
  match sm.find i with
  | some sc => .ok (sm.set i { sc with count := sc.count - 1 })
  | Option.none => .error (.invalidScope i)

/-- `on_recruit(scope_id, n)`: `count += n`; `KeyError` on a missing id. -/
def ScopeManager.onRecruit (sm : ScopeManager) (i : Nat) (n : Nat) : Except SchedErr ScopeManager :=
  match sm.find i with
  | some sc => .ok (sm.set i { sc with count := sc.count + n })
  | Option.none => .error (.invalidScope i)

/-- `cancel_scope(scope_id)`: set the sticky `cancelled` flag and return the
parent scope id; `RuntimeError` when the scope has no parent. -/
def ScopeManager.cancelScope (sm : ScopeManager) (i : Nat) : Except SchedErr (Nat × ScopeManager) :=
  match sm.find i with
  | some sc =>
    match sc.backId with
    | some back => .ok (back, sm.set i { sc with cancelled := true })
    | Option.none => .error .cancelRootScope
  | Option.none => .error (.invalidScope i)

/-- `check_scope_done(scope_id)`: false for an unknown id, otherwise
`count < 1 or cancelled`. -/
def ScopeManager.checkScopeDone (sm : ScopeManager) (i : Nat) : Bool :=
  match sm.find i with
  | Option.none => false
  | some sc => sc.count < 1 || sc.cancelled

/-- `get_recall(scope_id)`: the recorded recall coroutine and the parent id,
when a recall was recorded; asserts that the parent exists. -/
def ScopeManager.getRecall (sm : ScopeManager) (i : Nat) :
    Except SchedErr (Option (Coro × Nat)) :=
  match sm.find i with
  | Option.none => .error (.invalidScope i)
  | some sc =>
    match sc.recallCo with
    | Option.none => .ok Option.none
    | some r =>
      match sc.backId with
      | some back => .ok (some (r, back))
      | Option.none => .error .recallAssertFailed

/-- `TaskStatus` from `nahida/core/executor.py`. -/
inductive TaskStatus where
  | success
  | failed
  | cancelled
  | shutdown
deriving DecidableEq, Repr

/-- `ExecEvent` from `nahida/core/executor.py` (the `error_info` payload does
not influence the scheduler and is omitted). -/
structure ExecEvent where
  taskId : Option Nat
  status : TaskStatus
  value : Option Cell := Option.none

/-- Activation table: node uid to the order stream its `activate` yields.
Modelled from the spec: the node side of the scheduler contract is
`activate(context) → generator of Orders`, which no class under `src`
implements (the node library only defines single-shot `order` methods), so a
node is identified with the order stream its activation produces. -/
abbrev NodeTable := List (Nat × Coro)

/-- Look up and activate a node (`nxt.activate(...)`). -/
def NodeTable.activate (nodes : NodeTable) (uid : Nat) : Except SchedErr Coro :=
  match nodes.find? (fun p => p.1 == uid) with
  | some p => .ok p.2
  | Option.none => .error (.unknownNode uid)

/-- Activate every recruited node in order. -/
def NodeTable.activateAll (nodes : NodeTable) : List Nat → Except SchedErr (List Coro)
  | [] => .ok []
  | uid :: rest => do
    let c ← nodes.activate uid
    let cs ← nodes.activateAll rest
    .ok (c :: cs)

/-- The handle set shipped to the executor for an order:
`⋃ refs(arg) ∪ ⋃ refs(kwarg)` over the order's argument expressions. -/
def orderRefs (o : OrderItem) : List Nat :=
  (o.args.map Expr.refs).flatten ++ (o.kwargs.map (fun p => p.2.refs)).flatten

/-- `ConcurrentScheduler._recall_if_scope_done`: when the scope is done,
push its recorded recall (paired with the parent scope id) onto the ready
queue.  Returns the ready-queue additions. -/
def recallIfScopeDone (sm : ScopeManager) (scopeId : Nat) :
    Except SchedErr (List (Coro × Nat)) :=
  if sm.checkScopeDone scopeId then do
    match ← sm.getRecall scopeId with
    | some rb => .ok [rb]
    | Option.none => .ok []
  else
    .ok []

/-- `ConcurrentScheduler._recruit_downstreams_and_recall_if_scope_done`:
drop the order if the scope is already done; on ENTER create a child scope
whose recall is the advanced coroutine; on EXIT cancel the scope and redirect
to the parent; on NONE count the node as complete; then recruit downstreams
into the destination scope.  The source ends with
`if order_item != FlowControl.EXIT`, comparing the order item itself with the
enum member; the two are never equal, so the final recall check always runs.
Returns the ready-queue additions and the updated scope manager. -/
def recruitDownstreamsAndRecallIfScopeDone (nodes : NodeTable) (coro : Coro)
    (sm : ScopeManager) (order : OrderItem) (scopeId : Nat) :
    Except SchedErr (List (Coro × Nat) × ScopeManager) := do
  if sm.checkScopeDone scopeId then
    return ([], sm)
  let (destId, sm) ←
    match order.control with
    | .protEnter => pure (sm.createScope scopeId coro)
    | .protExit => sm.cancelScope scopeId
    | .protNone => do
      let sm ← sm.onNodeComplete scopeId
      pure (scopeId, sm)
  let (adds, sm) ←
    if order.recruit.isEmpty then
      pure (([] : List (Coro × Nat)), sm)
    else do
      let sm ← sm.onRecruit destId order.recruit.length
      let coros ← nodes.activateAll order.recruit
      pure (coros.map (fun c => (c, destId)), sm)
  let recallAdds ← recallIfScopeDone sm destId
  return (adds ++ recallAdds, sm)

/-- The full state of one `ConcurrentScheduler.forward` pass. -/
structure SchedState where
  context : Context
  ready : List (Coro × Nat)
  inflight : List (Nat × (Coro × Nat × OrderItem))
  nextTask : Nat
  scopes : ScopeManager
  nodes : NodeTable
  events : List ExecEvent
  maxInflight : Nat

/-- Result of one scheduler step: still running, returned (with the forward
context), or aborted by an escaping exception. -/
inductive StepOut where
  | running (s : SchedState)
  | done (ctx : Context)
  | failure (e : SchedErr)

/-- Remove an in-flight entry by task id (`inflight.pop(event.task_id)`). -/
def popInflight : List (Nat × (Coro × Nat × OrderItem)) → Nat →
    Option ((Coro × Nat × OrderItem) × List (Nat × (Coro × Nat × OrderItem)))
  | [], _ => Option.none
  | (k, v) :: rest, tid =>
    if k = tid then some (v, rest)
    else
      match popInflight rest tid with
      | some (v', rest') => some (v', (k, v) :: rest')
      | Option.none => Option.none

/-- The event half of the driver loop: return when nothing is in flight,
otherwise consume the next executor event.  A SUCCESS event binds
`event.value` (when present) into the ORDER's own context under the order's
uid and runs the scope bookkeeping; FAILED and CANCELLED events decrement the
scope count and run the recall check. -/
def eventStep (s : SchedState) : StepOut :=
  if s.inflight.length = 0 then .done s.context
  else
    match s.events with
    | [] => .failure .noPendingEvent
    | ev :: restEvents =>
      let s := { s with events := restEvents }
      match ev.taskId with
      | Option.none =>
        if ev.status = TaskStatus.shutdown then .done s.context else .running s
      | some tid =>
        match popInflight s.inflight tid with
        | Option.none => .failure .unknownTask
        | some ((coro, scopeId, order), restInflight) =>
          let s := { s with inflight := restInflight }
          if ev.status = TaskStatus.success then
            let order :=
              match ev.value with
              | some cell => { order with ctx := order.ctx.setItem order.uid cell }
              | Option.none => order
            match recruitDownstreamsAndRecallIfScopeDone s.nodes coro s.scopes order scopeId with
            | .error e => .failure e
            | .ok (adds, sm) => .running { s with ready := s.ready ++ adds, scopes := sm }
          else
            match s.scopes.onNodeComplete scopeId with
            | .error e => .failure e
            | .ok sm =>
              match recallIfScopeDone sm scopeId with
              | .error e => .failure e
              | .ok adds => .running { s with ready := s.ready ++ adds, scopes := sm }

/-- One step of the driver loop of `ConcurrentScheduler.forward`.  While the
ready queue is non-empty and fewer than `max_inflight` tasks are in flight,
the next coroutine is advanced: an exhausted coroutine is dropped, a
source-less order is handled synchronously, and an order with a source is
submitted to the executor (receiving a fresh task id) with the view
`order.context.view(orderRefs order)` of the order's own context.  Otherwise
the loop waits on the executor. -/
def schedStep (s : SchedState) : StepOut :=
  match s.ready with
  | (coro, scopeId) :: restReady =>
    if s.inflight.length < s.maxInflight then
      match coro with
      | [] => .running { s with ready := restReady }
      | order :: coroRest =>
        match order.source with
        | Option.none =>
          match recruitDownstreamsAndRecallIfScopeDone s.nodes coroRest s.scopes order scopeId with
          | .error e => .failure e
          | .ok (adds, sm) => .running { s with ready := restReady ++ adds, scopes := sm }
        | some _ =>
          let _ctxView := order.ctx.view (orderRefs order)
          .running { s with
            ready := restReady,
            inflight := s.inflight ++ [(s.nextTask, (coroRest, scopeId, order))],
            nextTask := s.nextTask + 1 }
    else eventStep s
  | [] => eventStep s

/-- Iterate the driver loop for a given number of steps. -/
def schedStepN : Nat → StepOut → StepOut
  | 0, r => r
  | n + 1, .running s => schedStepN n (schedStep s)
  | _ + 1, r => r

/-- The initial state of a forward pass: the ready queue seeded with the
starters' activation coroutines in the root scope, whose count is the number
of starters; nothing in flight. -/
def initState (context : Context) (starters : List Coro) (nodes : NodeTable)
    (events : List ExecEvent) (maxInflight : Nat) : SchedState :=
  { context := context,
    ready := starters.map (fun c => (c, 0)),
    inflight := [],
    nextTask := 0,
    scopes := ScopeManager.init starters.length,
    nodes := nodes,
    events := events,
    maxInflight := maxInflight }

/-- The default of the `max_inflight` parameter of
`ConcurrentScheduler.__init__`. -/
def defaultMaxInflight : Nat := 1000

/-- `Execute.order` from `nahida/core/node.py`: one order carrying the node's
source, argument subscriptions and downstream recruits; the order's context
field is left to its default (a fresh empty context). -/
def executeOrder (uid : Nat) (source : Nat ⊕ String) (args : List Expr)
    (kwargs : List (String × Expr)) (downstreams : List Nat) : OrderItem :=
  { uid := uid, source := some source, args := args, kwargs := kwargs,
    recruit := downstreams }

/-- `Break.order` from `nahida/core/node.py`: an EXIT order recruiting the
break's downstreams. -/
def breakOrder (uid : Nat) (downstreams : List Nat) : OrderItem :=
  { uid := uid, recruit := downstreams, control := FlowControl.protExit }

/-! ## Branch (`nahida/core/node.py`) -/

/-- `_ContextReader.read_context(context, attr)` for an integer attribute:
when `attr` is inside `[-len(args), len(args))` the subscribed expression is
evaluated (errors wrapped in `SubscribeError`); otherwise `(None, False)` is
returned without touching the context. -/
def readContextPos (reg : Registry) (ctx : Context) (args : List Expr) (attr : Int) :
    Except PyErr (Option Value × Bool) :=
  if -(args.length : Int) ≤ attr ∧ attr < (args.length : Int) then
    let j := if attr < 0 then attr + args.length else attr
    match args.get? j.toNat with
    | some e =>
      match Expr.eval reg ctx e with
      | .ok v => .ok (some v, true)
      | .error _ => .error .subscribeError
    | Option.none => .ok (Option.none, false)
  else
    .ok (Option.none, false)

/-- A `Branch` node: optional condition subscription (positional attribute 0
when present) and the two downstream sets. -/
structure BranchNode where
  uid : Nat
  cond : Option Expr
  dsTrue : List Nat
  dsFalse : List Nat

/-- The positional subscription list of a branch: `subs(condition)` is called
only when a condition was given. -/
def BranchNode.subsArgs (b : BranchNode) : List Expr :=
  match b.cond with
  | some c => [c]
  | Option.none => []

/-- `Branch.order`: read positional attribute 0; when `bool(val) and status`
recruit the true downstreams, otherwise the false downstreams.  The emitted
order has no source and NONE control. -/
def BranchNode.order (b : BranchNode) (reg : Registry) (ctx : Context) :
    Except PyErr OrderItem := do
  let (val, status) ← readContextPos reg ctx b.subsArgs 0
  let truthy := match val with
    | some v => v.truth
    | Option.none => false
  if truthy && status then
    .ok { uid := b.uid, recruit := b.dsTrue }
  else
    .ok { uid := b.uid, recruit := b.dsFalse }

/-! ## Graph.lambdify and its callers (`nahida/core/graph.py`, `nahida/creation.py`)

The runner produced by `lambdify` is broken in the source at several places;
the following name-level embeddings record what the involved modules define
and what the runner and its callers refer to, under the Python rule that an
absent attribute or import target raises at run or import time. -/

/-- The method names the `Context` class body defines in
`nahida/core/context.py`. -/
def contextMethodNames : List String :=
  ["__init__", "__getitem__", "__setitem__", "__iter__", "__len__",
   "new", "view", "mark", "fork", "dump", "load"]

/-- The method the runner of `Graph.lambdify` invokes on the fresh context to
store the input bundle (`context.write(self.uid, initial)`). -/
def lambdifyRunnerContextCalls : List String := ["write"]

/-- The names `nahida/core/graph.py` imports from `nahida/core/node.py`
(`from .node import Node, FlowCtrl as _FC`). -/
def graphImportsFromNode : List String := ["Node", "FlowCtrl"]

/-- The public names `nahida/core/node.py` defines (its `__all__`). -/
def nodeModuleNames : List String :=
  ["FlowControl", "OrderItem", "Node", "Execute", "Branch", "Repeat",
   "Break", "Join"]

/-- The class-level attribute names the `Graph` class body defines in
`nahida/core/graph.py`. -/
def graphClassAttrNames : List String :=
  ["__init__", "_validate_port", "_read_context", "_build_exposer",
   "lambdify", "input"]

/-- The `Graph` class attribute `nahida/creation.py` reads to build the
graph-input expression `gin` (`VariableExpr(Graph.GRAPH_INPUT_ID)`). -/
def creationGraphAttrReads : List String := ["GRAPH_INPUT_ID"]

/-- The handle under which the runner stores the input bundle: the source
passes `self.uid`, the graph's own uid, not a reserved constant. -/
def lambdifyInputTarget (graphUid : Nat) : Nat := graphUid

/-- The input bundle the runner assembles before storing it: positional
arguments under integer keys `0, 1, …`, then keyword arguments under their
names (`initial.update(enumerate(args)); initial.update(kwargs)`). -/
def lambdifyInputBundle (posArgs : List Value) (kwArgs : List (String × Value)) : Value :=
  .dict ((posArgs.enum.map (fun p => (Sum.inl (p.1 : Int), p.2))) ++
         (kwArgs.map (fun p => (Sum.inr p.1, p.2))))

/-! ## Concrete forward scenarios -/

/-- The starter coroutine of the result-routing scenario: one `Execute`-style
order (uid 2, registered source 7, no argument subscriptions, no
downstreams). -/
def execStarterCoro : Coro := [executeOrder 2 (Sum.inl 7) [] [] []]

/-- The SUCCESS event the executor delivers for the submitted task, carrying
the freshly allocated result cell with the return value 42. -/
def successEvent : ExecEvent := ⟨some 0, TaskStatus.success, some ⟨some (.int 42)⟩⟩

/-- Initial forward state of the result-routing scenario: an empty forward
context, the single starter, no other nodes, the single SUCCESS event and the
default in-flight bound. -/
def successRunInit : SchedState :=
  initState Context.empty [execStarterCoro] [] [successEvent] defaultMaxInflight

/-- The order the scope-owning starter of the cancellation scenario would
yield when recalled. -/
def recallOrder : OrderItem := { uid := 10 }

/-- The ENTER order of the scope-owning starter: creates the loop scope and
recruits worker node 20 and break node 30 into it. -/
def enterOrder : OrderItem :=
  { uid := 10, recruit := [20, 30], control := FlowControl.protEnter }

/-- The scope-owning starter coroutine: the ENTER order, then the recall
continuation. -/
def enterStarterCoro : Coro := [enterOrder, recallOrder]

/-- Worker node 20: a single executor-bound order. -/
def workerCoro : Coro := [executeOrder 20 (Sum.inl 5) [] [] []]

/-- Break node 30: a single EXIT order with no downstreams. -/
def breakCoro : Coro := [breakOrder 30 []]

/-- Activation table of the cancellation scenario. -/
def scenarioNodes : NodeTable := [(20, workerCoro), (30, breakCoro)]

/-- The FAILED event the executor delivers for the worker task after the
scope has been cancelled. -/
def failedEvent : ExecEvent := ⟨some 0, TaskStatus.failed, Option.none⟩

/-- Initial forward state of the cancellation scenario. -/
def cancelRunInit : SchedState :=
  initState Context.empty [enterStarterCoro] scenarioNodes [failedEvent] 10

/-- A saturated mid-run state: the in-flight bound (1) is reached, and the
FAILED event for the single outstanding task is pending. -/
def saturatedState : SchedState :=
  { context := Context.empty,
    ready := [],
    inflight := [(0, ([], 0, recallOrder))],
    nextTask := 1,
    scopes := ScopeManager.init 1,
    nodes := [],
    events := [failedEvent],
    maxInflight := 1 }

/-! ## Auxiliary predicates and observables -/

/-- Every member of the list fails with one of the three error kinds Union
catches. -/
def AllMembersCatchFail (reg : Registry) (ctx : Context) (es : ExprList) : Prop :=
  ∀ e ∈ es.toList, ∃ err, Expr.eval reg ctx e = .error err ∧ unionCatches err = true

/-- The number of in-flight tasks of a step outcome (0 once the pass has
returned or aborted). -/
def stepOutInflight : StepOut → Nat
  | .running s => s.inflight.length
  | _ => 0

/-- The running invariant of the in-flight bound: a running state has at most
`m` tasks in flight and its configured bound is `m`. -/
def InflightInv (m : Nat) : StepOut → Prop
  | .running s => s.inflight.length ≤ s.maxInflight ∧ s.maxInflight = m
  | _ => True

/-! ## Theorems -/

/-- C10: a `Branch` constructed with no condition has no subscription at
positional attribute 0, so `read_context` returns `(None, False)` without
raising, the truthiness test fails, and every activation emits — without any
error — an order with no source and NONE control that recruits the
false-branch downstreams. -/
theorem branch_no_condition_recruits_false_branch
    (reg : Registry) (ctx : Context) (uid : Nat) (dsTrue dsFalse : List Nat) :
    BranchNode.order ⟨uid, Option.none, dsTrue, dsFalse⟩ reg ctx =
      .ok { uid := uid, recruit := dsFalse } := rfl

/-- C1 (failing run): in the scenario of a single starter whose order carries
a registered source, the executor's SUCCESS event binds the result cell into
`order_item.context` — the fresh empty context created by the `OrderItem`
default factory, since `Execute.order` passes no context — so the forward
pass returns its context argument unchanged and a downstream or exposed
reference to the node's uid evaluated against the returned context fails
with `DataNotFoundError` instead of reading the executor's return value. -/
theorem success_value_lost_from_forward_context :
    schedStepN 3 (.running successRunInit) = .done Context.empty ∧
    Expr.eval [] Context.empty (.ref 2) = .error (.dataNotFound 2) :=
  ⟨rfl, rfl⟩

/-- C5 (failing run): scope 1 is entered with the starter's continuation
recorded as its recall, node 30 EXITs the scope (cancelling it), and then the
FAILED event of the in-flight worker task attributed to scope 1 runs
`on_node_complete` followed by `_recall_if_scope_done`; because
`check_scope_done` also holds for a cancelled scope and `get_recall` ignores
the `cancelled` flag, the cancelled scope's recall IS pushed onto the ready
queue. -/
theorem cancelled_scope_recall_enqueued :
    ∃ s : SchedState, schedStepN 4 (.running cancelRunInit) = .running s ∧
      s.scopes.find 1 = some ⟨1, some [recallOrder], some 0, true⟩ ∧
      s.ready = [([recallOrder], 0)] :=
  ⟨_, rfl, rfl, rfl⟩

/-- C8 (counterexample): evaluating `VariableGetItemExpr(5, Const(0))`
against an empty context — a failing lookup — produces
`DataNotFoundError(5)`, not the `DataGetItem` error kind the claim
prescribes. -/
theorem varGetItem_lookup_failure_not_dataGetItem :
    Expr.eval [] Context.empty (.varGetItem 5 (.const (.int 0))) =
      .error (.dataNotFound 5) ∧
    PyErr.dataNotFound 5 ≠ PyErr.dataGetItem :=
  ⟨rfl, by decide⟩

/-- C7 (counterexample): a `Formula` whose binding `x` is `RefExpr(5)`,
evaluated against an empty context, raises `DataNotFoundError(5)` — the
binding sub-expressions are evaluated outside the `try` block — rather than
the `ExprEval` error the claim prescribes. -/
theorem formula_binding_failure_not_exprEval :
    Expr.eval [] Context.empty
        (.formula (fun _ => .ok Value.none) (.cons "x" (.ref 5) .nil)) =
      .error (.dataNotFound 5) ∧
    PyErr.dataNotFound 5 ≠ PyErr.exprEval :=
  ⟨rfl, by decide⟩

/-- C6 (failing code): the `lambdify` pipeline cannot run as claimed:
`nahida/core/graph.py` imports `FlowCtrl` from `nahida/core/node.py`, which
does not define that name (import fails); the runner stores the input bundle
by calling `context.write`, a method `Context` does not define; the bundle is
stored under the graph's own uid (here 7), not the reserved input handle 0;
and `nahida/creation.py` builds `gin` from `Graph.GRAPH_INPUT_ID`, an
attribute the `Graph` class does not define.  The bundle itself is assembled
as the claim describes: positional arguments under integer keys, keyword
arguments under their names. -/
theorem lambdify_runner_broken :
    ("FlowCtrl" ∈ graphImportsFromNode ∧ "FlowCtrl" ∉ nodeModuleNames) ∧
    ("write" ∈ lambdifyRunnerContextCalls ∧ "write" ∉ contextMethodNames) ∧
    ("GRAPH_INPUT_ID" ∈ creationGraphAttrReads ∧
      "GRAPH_INPUT_ID" ∉ graphClassAttrNames) ∧
    lambdifyInputTarget 7 ≠ 0 ∧
    lambdifyInputBundle [.int 10] [("k", .str "v")] =
      .dict [(Sum.inl 0, .int 10), (Sum.inr "k", .str "v")] :=
  ⟨⟨by decide, by decide⟩, ⟨by decide, by decide⟩, ⟨by decide, by decide⟩,
    by decide, rfl⟩

/-- C8 (amended): `VariableGetItemExpr(h, key_expr)` returns the evaluated
key applied to the value stored under handle `h`; a `KeyError` — whether from
the context lookup or from the item access itself — is converted to
`DataNotFoundError(h)`, and any other item-access exception propagates
unchanged; the `DataGetItem` error kind is not produced. -/
theorem varGetItem_eval_spec :
    (∀ (reg : Registry) (ctx : Context) (uid : Nat) (ie : Expr) (i v r : Value),
      Expr.eval reg ctx ie = .ok i →
      ctx.getitem uid = .ok ⟨some v⟩ →
      v.getitem i = .ok r →
      Expr.eval reg ctx (.varGetItem uid ie) = .ok r) ∧
    (∀ (reg : Registry) (ctx : Context) (uid : Nat) (ie : Expr) (i : Value),
      Expr.eval reg ctx ie = .ok i →
      ctx.getitem uid = .error .keyError →
      Expr.eval reg ctx (.varGetItem uid ie) = .error (.dataNotFound uid)) ∧
    (∀ (reg : Registry) (ctx : Context) (uid : Nat) (ie : Expr) (i v : Value),
      Expr.eval reg ctx ie = .ok i →
      ctx.getitem uid = .ok ⟨some v⟩ →
      v.getitem i = .error .keyError →
      Expr.eval reg ctx (.varGetItem uid ie) = .error (.dataNotFound uid)) ∧
    (∀ (reg : Registry) (ctx : Context) (uid : Nat) (ie : Expr) (i v : Value)
      (err : PyErr),
      Expr.eval reg ctx ie = .ok i →
      ctx.getitem uid = .ok ⟨some v⟩ →
      v.getitem i = .error err →
      err ≠ .keyError →
      Expr.eval reg ctx (.varGetItem uid ie) = .error err) := by
  refine ⟨?_, ?_, ?_, ?_⟩
  · intro reg ctx uid ie i v r hie hctx hv
    simp [Expr.eval, hie, hctx, Cell.getWithItem, hv, catchKeyError,
      Bind.bind, Except.bind]
  · intro reg ctx uid ie i hie hctx
    simp [Expr.eval, hie, hctx, catchKeyError, Bind.bind, Except.bind]
  · intro reg ctx uid ie i v hie hctx hv
    simp [Expr.eval, hie, hctx, Cell.getWithItem, hv, catchKeyError,
      Bind.bind, Except.bind]
  · intro reg ctx uid ie i v err hie hctx hv hne
    simp only [Expr.eval, hie, hctx, Cell.getWithItem, hv, Bind.bind, Except.bind]
    cases err <;> simp_all [catchKeyError]

/-- Witness for the amended C8 theorem at concrete inputs: a list value bound
under handle 3 is indexed by the constant key 0. -/
theorem varGetItem_eval_spec_witness :
    Expr.eval [] ⟨[(3, ⟨some (.list [.int 7])⟩)]⟩
        (.varGetItem 3 (.const (.int 0))) = .ok (.int 7) :=
  varGetItem_eval_spec.1 [] ⟨[(3, ⟨some (.list [.int 7])⟩)]⟩ 3
    (.const (.int 0)) (.int 0) (.list [.int 7]) (.int 7) rfl rfl rfl

/-- C7 (amended): in `Formula` and `Function` expressions only the sandboxed
formula evaluation, the registry lookup, and the registered-callable
invocation are wrapped as `ExprEval`; a failure raised while evaluating a
binding or argument sub-expression propagates to the caller unchanged. -/
theorem formula_func_error_wrapping :
    (∀ (reg : Registry) (ctx : Context)
      (f : List (String × Value) → Except PyErr Value) (locals : KwList)
      (err : PyErr),
      evalKws reg ctx locals = .error err →
      Expr.eval reg ctx (.formula f locals) = .error err) ∧
    (∀ (reg : Registry) (ctx : Context)
      (f : List (String × Value) → Except PyErr Value) (locals : KwList)
      (vars : List (String × Value)) (pe : PyErr),
      evalKws reg ctx locals = .ok vars →
      f vars = .error pe →
      Expr.eval reg ctx (.formula f locals) = .error .exprEval) ∧
    (∀ (reg : Registry) (ctx : Context) (fid : Nat) (args : ExprList)
      (kwargs : KwList) (err : PyErr),
      evalArgs reg ctx args = .error err →
      Expr.eval reg ctx (.func fid args kwargs) = .error err) ∧
    (∀ (reg : Registry) (ctx : Context) (fid : Nat) (args : ExprList)
      (kwargs : KwList) (vs : List Value) (err : PyErr),
      evalArgs reg ctx args = .ok vs →
      evalKws reg ctx kwargs = .error err →
      Expr.eval reg ctx (.func fid args kwargs) = .error err) ∧
    (∀ (reg : Registry) (ctx : Context) (fid : Nat) (args : ExprList)
      (kwargs : KwList) (vs : List Value) (kws : List (String × Value)),
      evalArgs reg ctx args = .ok vs →
      evalKws reg ctx kwargs = .ok kws →
      reg.find fid = Option.none →
      Expr.eval reg ctx (.func fid args kwargs) = .error .exprEval) ∧
    (∀ (reg : Registry) (ctx : Context) (fid : Nat) (args : ExprList)
      (kwargs : KwList) (vs : List Value) (kws : List (String × Value))
      (fn : List Value → List (String × Value) → Except PyErr Value)
      (pe : PyErr),
      evalArgs reg ctx args = .ok vs →
      evalKws reg ctx kwargs = .ok kws →
      reg.find fid = some fn →
      fn vs kws = .error pe →
      Expr.eval reg ctx (.func fid args kwargs) = .error .exprEval) := by
  refine ⟨?_, ?_, ?_, ?_, ?_, ?_⟩
  · intro reg ctx f locals err h
    simp [Expr.eval, h, Bind.bind, Except.bind]
  · intro reg ctx f locals vars pe h hf
    simp [Expr.eval, h, hf, Bind.bind, Except.bind]
  · intro reg ctx fid args kwargs err h
    simp [Expr.eval, h, Bind.bind, Except.bind]
  · intro reg ctx fid args kwargs vs err h hk
    simp [Expr.eval, h, hk, Bind.bind, Except.bind]
  · intro reg ctx fid args kwargs vs kws h hk hr
    simp [Expr.eval, h, hk, hr, Bind.bind, Except.bind]
  · intro reg ctx fid args kwargs vs kws fn pe h hk hr hf
    simp [Expr.eval, h, hk, hr, hf, Bind.bind, Except.bind]

/-- Witness for the amended C7 theorem at concrete inputs: a formula whose
binding fails propagates `DataNotFoundError(5)`, and a function whose
registered callable fails surfaces `ExprEval`. -/
theorem formula_func_error_wrapping_witness :
    Expr.eval [] Context.empty
        (.formula (fun _ => .ok Value.none) (.cons "y" (.ref 5) .nil)) =
      .error (.dataNotFound 5) ∧
    Expr.eval [(4, fun _ _ => .error .typeError)] Context.empty
        (.func 4 .nil .nil) = .error .exprEval :=
  ⟨formula_func_error_wrapping.1 [] Context.empty (fun _ => .ok Value.none)
      (.cons "y" (.ref 5) .nil) (.dataNotFound 5) rfl,
    formula_func_error_wrapping.2.2.2.2.2 [(4, fun _ _ => .error .typeError)]
      Context.empty 4 .nil .nil [] [] (fun _ _ => .error .typeError)
      .typeError rfl rfl rfl rfl⟩

theorem evalUnionMembers_append_skip (reg : Registry) (ctx : Context) :
    ∀ (pre tail : ExprList), AllMembersCatchFail reg ctx pre →
      evalUnionMembers reg ctx (pre.append tail) = evalUnionMembers reg ctx tail
  | .nil, _, _ => rfl
  | .cons e rest, tail, h => by
    obtain ⟨err, herr, hcatch⟩ := h e (by simp [ExprList.toList])
    have hrest : AllMembersCatchFail reg ctx rest := by
      intro e' he'
      exact h e' (by simp [ExprList.toList, he'])
    simp [ExprList.append, evalUnionMembers, herr, hcatch,
      evalUnionMembers_append_skip reg ctx rest tail hrest]

theorem evalUnionMembers_all_fail (reg : Registry) (ctx : Context) :
    ∀ (es : ExprList), AllMembersCatchFail reg ctx es →
      evalUnionMembers reg ctx es = .error .unionError
  | .nil, _ => rfl
  | .cons e rest, h => by
    obtain ⟨err, herr, hcatch⟩ := h e (by simp [ExprList.toList])
    have hrest : AllMembersCatchFail reg ctx rest := by
      intro e' he'
      exact h e' (by simp [ExprList.toList, he'])
    simp [evalUnionMembers, herr, hcatch,
      evalUnionMembers_all_fail reg ctx rest hrest]

/-- C3: a union evaluates to the value of its first member whose `eval`
succeeds, where a member is skipped exactly when it fails with one of
`DataNotFound`, `DataGetItem` or `ExprEval`; when every member fails with one
of those three kinds the union fails with `UnionError`; and a member failure
of any other kind propagates out of the union unchanged. -/
theorem unionExpr_eval_spec :
    (∀ (reg : Registry) (ctx : Context) (pre : ExprList) (e : Expr)
      (post : ExprList) (v : Value),
      AllMembersCatchFail reg ctx pre →
      Expr.eval reg ctx e = .ok v →
      Expr.eval reg ctx (.union (pre.append (.cons e post))) = .ok v) ∧
    (∀ (reg : Registry) (ctx : Context) (es : ExprList),
      AllMembersCatchFail reg ctx es →
      Expr.eval reg ctx (.union es) = .error .unionError) ∧
    (∀ (reg : Registry) (ctx : Context) (pre : ExprList) (e : Expr)
      (post : ExprList) (err : PyErr),
      AllMembersCatchFail reg ctx pre →
      Expr.eval reg ctx e = .error err →
      unionCatches err = false →
      Expr.eval reg ctx (.union (pre.append (.cons e post))) = .error err) := by
  refine ⟨?_, ?_, ?_⟩
  · intro reg ctx pre e post v hpre he
    have hu : Expr.eval reg ctx (.union (pre.append (.cons e post))) =
        evalUnionMembers reg ctx (pre.append (.cons e post)) := by
      simp [Expr.eval]
    rw [hu, evalUnionMembers_append_skip reg ctx pre _ hpre]
    simp [evalUnionMembers, he]
  · intro reg ctx es hes
    have hu : Expr.eval reg ctx (.union es) = evalUnionMembers reg ctx es := by
      simp [Expr.eval]
    rw [hu, evalUnionMembers_all_fail reg ctx es hes]
  · intro reg ctx pre e post err hpre he hcatch
    have hu : Expr.eval reg ctx (.union (pre.append (.cons e post))) =
        evalUnionMembers reg ctx (pre.append (.cons e post)) := by
      simp [Expr.eval]
    rw [hu, evalUnionMembers_append_skip reg ctx pre _ hpre]
    simp [evalUnionMembers, he, hcatch]

/-- Witness for the union theorem at concrete inputs: `Reference(99) |
Constant(42)` on an empty context yields 42; `Union(Reference(99))` on an
empty context fails `UnionError`; and a member raising the uncaught
`ValueError` (an empty cell under handle 1) propagates it out of the union. -/
theorem unionExpr_eval_spec_witness :
    Expr.eval [] Context.empty
        (.union (.cons (.ref 99) (.cons (.const (.int 42)) .nil))) =
      .ok (.int 42) ∧
    Expr.eval [] Context.empty (.union (.cons (.ref 99) .nil)) =
      .error .unionError ∧
    Expr.eval [] ⟨[(1, ⟨Option.none⟩)]⟩
        (.union (.cons (.ref 99) (.cons (.ref 1) .nil))) =
      .error .valueError := by
  have hpre : AllMembersCatchFail [] Context.empty (.cons (.ref 99) .nil) := by
    intro e' he'
    simp [ExprList.toList] at he'
    subst he'
    exact ⟨.dataNotFound 99, rfl, rfl⟩
  have hpre2 : AllMembersCatchFail [] ⟨[(1, ⟨Option.none⟩)]⟩ (.cons (.ref 99) .nil) := by
    intro e' he'
    simp [ExprList.toList] at he'
    subst he'
    exact ⟨.dataNotFound 99, rfl, rfl⟩
  refine ⟨?_, ?_, ?_⟩
  · exact unionExpr_eval_spec.1 [] Context.empty (.cons (.ref 99) .nil)
      (.const (.int 42)) .nil (.int 42) hpre rfl
  · exact unionExpr_eval_spec.2.1 [] Context.empty (.cons (.ref 99) .nil) hpre
  · exact unionExpr_eval_spec.2.2 [] ⟨[(1, ⟨Option.none⟩)]⟩
      (.cons (.ref 99) .nil) (.ref 1) .nil .valueError hpre2 rfl rfl

theorem find_filter_of_contains (data : List (Nat × Cell)) (S : List Nat) (uid : Nat)
    (h : S.contains uid = true) :
    (data.filter (fun p => S.contains p.1)).find? (fun p => p.1 == uid) =
      data.find? (fun p => p.1 == uid) := by
  induction data with
  | nil => rfl
  | cons hd tl ih =>
    by_cases hk : hd.1 = uid
    · have hs : S.contains hd.1 = true := by rw [hk]; exact h
      have hbeq : (hd.1 == uid) = true := by simp [hk]
      rw [List.filter_cons, if_pos hs]
      simp only [List.find?_cons, hbeq]
    · have hbeq : (hd.1 == uid) = false := by simp [hk]
      by_cases hs : S.contains hd.1 = true
      · rw [List.filter_cons, if_pos hs]
        simp only [List.find?_cons, hbeq]
        exact ih
      · rw [List.filter_cons, if_neg hs, ih]
        simp only [List.find?_cons, hbeq]

theorem Context.getitem_view (ctx : Context) (S : List Nat) (uid : Nat)
    (h : S.contains uid = true) :
    (ctx.view S).getitem uid = ctx.getitem uid := by
  unfold Context.getitem Context.view
  rw [find_filter_of_contains ctx.data S uid h]

mutual

theorem eval_view_of_refs_sub (reg : Registry) (ctx : Context) (S : List Nat) :
    ∀ (e : Expr), (∀ u ∈ e.refs, S.contains u = true) →
      Expr.eval reg (ctx.view S) e = Expr.eval reg ctx e
  | .const _, _ => rfl
  | .ref uid, h => by
    have hg := Context.getitem_view ctx S uid (h uid (by simp [Expr.refs]))
    simp [Expr.eval, hg]
  | .varGetItem uid ie, h => by
    have hi := eval_view_of_refs_sub reg ctx S ie
      (fun u hu => h u (by simp only [Expr.refs, List.mem_cons]; exact Or.inr hu))
    have hg := Context.getitem_view ctx S uid (h uid (by simp [Expr.refs]))
    simp [Expr.eval, hi, hg]
  | .getItem e ie, h => by
    have h1 := eval_view_of_refs_sub reg ctx S e
      (fun u hu => h u (by simp only [Expr.refs, List.mem_append]; exact Or.inl hu))
    have h2 := eval_view_of_refs_sub reg ctx S ie
      (fun u hu => h u (by simp only [Expr.refs, List.mem_append]; exact Or.inr hu))
    simp [Expr.eval, h1, h2]
  | .union es, h => by
    have hm := evalUnionMembers_view reg ctx S es (fun u hu => h u (by simpa [Expr.refs] using hu))
    simp [Expr.eval, hm]
  | .formula f locals, h => by
    have hm := evalKws_view reg ctx S locals (fun u hu => h u (by simpa [Expr.refs] using hu))
    simp [Expr.eval, hm]
  | .func fid args kwargs, h => by
    have h1 := evalArgs_view reg ctx S args
      (fun u hu => h u (by simp only [Expr.refs, List.mem_append]; exact Or.inl hu))
    have h2 := evalKws_view reg ctx S kwargs
      (fun u hu => h u (by simp only [Expr.refs, List.mem_append]; exact Or.inr hu))
    simp [Expr.eval, h1, h2]

theorem evalUnionMembers_view (reg : Registry) (ctx : Context) (S : List Nat) :
    ∀ (es : ExprList), (∀ u ∈ refsOfList es, S.contains u = true) →
      evalUnionMembers reg (ctx.view S) es = evalUnionMembers reg ctx es
  | .nil, _ => rfl
  | .cons e rest, h => by
    have h1 := eval_view_of_refs_sub reg ctx S e
      (fun u hu => h u (by simp only [refsOfList, List.mem_append]; exact Or.inl hu))
    have h2 := evalUnionMembers_view reg ctx S rest
      (fun u hu => h u (by simp only [refsOfList, List.mem_append]; exact Or.inr hu))
    simp [evalUnionMembers, h1, h2]

theorem evalArgs_view (reg : Registry) (ctx : Context) (S : List Nat) :
    ∀ (args : ExprList), (∀ u ∈ refsOfList args, S.contains u = true) →
      evalArgs reg (ctx.view S) args = evalArgs reg ctx args
  | .nil, _ => rfl
  | .cons e rest, h => by
    have h1 := eval_view_of_refs_sub reg ctx S e
      (fun u hu => h u (by simp only [refsOfList, List.mem_append]; exact Or.inl hu))
    have h2 := evalArgs_view reg ctx S rest
      (fun u hu => h u (by simp only [refsOfList, List.mem_append]; exact Or.inr hu))
    simp [evalArgs, h1, h2]

theorem evalKws_view (reg : Registry) (ctx : Context) (S : List Nat) :
    ∀ (kws : KwList), (∀ u ∈ refsOfKws kws, S.contains u = true) →
      evalKws reg (ctx.view S) kws = evalKws reg ctx kws
  | .nil, _ => rfl
  | .cons name e rest, h => by
    have h1 := eval_view_of_refs_sub reg ctx S e
      (fun u hu => h u (by simp only [refsOfKws, List.mem_append]; exact Or.inl hu))
    have h2 := evalKws_view reg ctx S rest
      (fun u hu => h u (by simp only [refsOfKws, List.mem_append]; exact Or.inr hu))
    simp [evalKws, h1, h2]

end

/-- C4: `refs` captures every handle `eval` reads — evaluating any expression
against the projection `ctx.view (refs e)` produces exactly the same outcome
(value or error) as evaluating it against the full context.  `refs` is
embedded as a pure function of the expression alone, mirroring the source,
whose `refs()` bodies never touch a context, so purity and idempotence hold
by construction. -/
theorem refs_view_eval_exact (reg : Registry) (ctx : Context) (e : Expr) :
    Expr.eval reg (ctx.view e.refs) e = Expr.eval reg ctx e :=
  eval_view_of_refs_sub reg ctx e.refs e
    (fun _ hu => List.elem_eq_true_of_mem hu)

theorem eventStep_context {s s' : SchedState}
    (h : eventStep s = .running s') : s'.context = s.context := by
  unfold eventStep at h
  repeat' first
    | split at h
    | dsimp only at h
  all_goals first
    | exact StepOut.noConfusion h
    | (injection h with h2; subst h2; rfl)

theorem schedStep_context {s s' : SchedState}
    (h : schedStep s = .running s') : s'.context = s.context := by
  unfold schedStep at h
  repeat' split at h
  all_goals first
    | exact StepOut.noConfusion h
    | (injection h with h2; subst h2; rfl)
    | exact eventStep_context h

theorem popInflight_length (tid : Nat) :
    ∀ (l : List (Nat × (Coro × Nat × OrderItem)))
      (v : Coro × Nat × OrderItem) (l' : List (Nat × (Coro × Nat × OrderItem))),
      popInflight l tid = some (v, l') → l'.length + 1 = l.length
  | [], v, l', h => by simp [popInflight] at h
  | (k, w) :: rest, v, l', h => by
    unfold popInflight at h
    split at h
    · injection h with h2
      obtain ⟨rfl, rfl⟩ := Prod.mk.inj h2
      simp
    · split at h
      · rename_i v2 rest2 heq
        injection h with h2
        obtain ⟨rfl, rfl⟩ := Prod.mk.inj h2
        have hrec := popInflight_length tid rest v2 rest2 heq
        simp
        omega
      · exact Option.noConfusion h

theorem eventStep_bound {s s' : SchedState} (h : eventStep s = .running s') :
    s'.inflight.length ≤ s.inflight.length ∧ s'.maxInflight = s.maxInflight ∧
      ∃ tail, s'.ready = s.ready ++ tail := by
  unfold eventStep at h
  split at h
  · exact StepOut.noConfusion h
  · split at h
    · exact StepOut.noConfusion h
    · dsimp only at h
      split at h
      · split at h
        · exact StepOut.noConfusion h
        · injection h with h2
          subst h2
          exact ⟨Nat.le_refl _, rfl, [], by simp⟩
      · split at h
        · exact StepOut.noConfusion h
        · rename_i coro scopeId order restInflight heqPop
          have hlen := popInflight_length _ _ _ _ heqPop
          try dsimp only at h
          split at h
          · split at h
            · exact StepOut.noConfusion h
            · injection h with h2
              subst h2
              exact ⟨(by omega : restInflight.length ≤ s.inflight.length), rfl, _, rfl⟩
          · split at h
            · exact StepOut.noConfusion h
            · split at h
              · exact StepOut.noConfusion h
              · injection h with h2
                subst h2
                exact ⟨(by omega : restInflight.length ≤ s.inflight.length), rfl, _, rfl⟩

theorem schedStep_preserves_bound {s s' : SchedState}
    (hinv : s.inflight.length ≤ s.maxInflight)
    (h : schedStep s = .running s') :
    s'.inflight.length ≤ s'.maxInflight ∧ s'.maxInflight = s.maxInflight := by
  unfold schedStep at h
  split at h
  · split at h
    case isTrue hlt =>
      repeat' first
        | split at h
        | dsimp only at h
      all_goals first
        | exact StepOut.noConfusion h
        | (injection h with h2; subst h2; exact ⟨hinv, rfl⟩)
        | (injection h with h2; subst h2;
           refine ⟨?_, rfl⟩;
           simp only [List.length_append, List.length_cons, List.length_nil];
           omega)
    case isFalse hge =>
      exact ⟨(eventStep_bound h).2.1 ▸ Nat.le_trans (eventStep_bound h).1 hinv,
        (eventStep_bound h).2.1⟩
  · exact ⟨(eventStep_bound h).2.1 ▸ Nat.le_trans (eventStep_bound h).1 hinv,
      (eventStep_bound h).2.1⟩

theorem schedStep_no_drain_when_full {s s' : SchedState}
    (hfull : s.maxInflight ≤ s.inflight.length)
    (h : schedStep s = .running s') :
    ∃ tail, s'.ready = s.ready ++ tail := by
  unfold schedStep at h
  split at h
  · split at h
    case isTrue hlt => omega
    case isFalse hge => exact (eventStep_bound h).2.2
  · exact (eventStep_bound h).2.2

theorem schedStepN_done (n : Nat) (c : Context) :
    schedStepN n (.done c) = .done c := by
  cases n <;> rfl

theorem schedStepN_failure (n : Nat) (e : SchedErr) :
    schedStepN n (.failure e) = .failure e := by
  cases n <;> rfl

theorem schedStepN_inflightInv (m : Nat) :
    ∀ (n : Nat) (out : StepOut), InflightInv m out → InflightInv m (schedStepN n out)
  | 0, _, h => h
  | n + 1, .running s, h => by
    have hstep : schedStepN (n + 1) (.running s) = schedStepN n (schedStep s) := rfl
    rw [hstep]
    match hout : schedStep s with
    | .running s2 =>
      obtain ⟨h1, h2⟩ := schedStep_preserves_bound h.1 hout
      exact schedStepN_inflightInv m n _ ⟨h1, h2.trans h.2⟩
    | .done c => rw [schedStepN_done]; trivial
    | .failure e => rw [schedStepN_failure]; trivial
  | n + 1, .done c, _ => by rw [schedStepN_done]; trivial
  | n + 1, .failure e, _ => by rw [schedStepN_failure]; trivial

theorem inflightInv_le {m : Nat} {out : StepOut} (h : InflightInv m out) :
    stepOutInflight out ≤ m := by
  cases out with
  | running s =>
    obtain ⟨h1, h2⟩ := h
    simpa [stepOutInflight, h2] using h2 ▸ h1
  | done c => exact Nat.zero_le m
  | failure e => exact Nat.zero_le m

/-- C2 (failing code): the `OrderItem` dataclass declares no `release` field
— despite its docstring — while `Repeat.Iter.order` passes `release=` (and
`recall=`) keywords, so constructing the Iter node's order raises
`TypeError`; and the embedded driver step never writes the forward context at
all, so no released value is ever bound before an order is handled. -/
theorem orderItem_release_not_supported :
    (dataclassCallAccepts orderItemFields repeatIterOrderKeywords = false ∧
     orderItemFields.contains "release" = false ∧
     repeatIterOrderKeywords.contains "release" = true) ∧
    (∀ (s s' : SchedState), schedStep s = .running s' → s'.context = s.context) := by
  refine ⟨⟨by decide, by decide, by decide⟩, ?_⟩
  intro s s' h
  exact schedStep_context h

/-- Witness for the driver-step conjunct of the release theorem at a concrete
state: draining an exhausted starter coroutine leaves the forward context of
the one-starter initial state unchanged. -/
theorem orderItem_release_not_supported_witness :
    ({ initState Context.empty [[]] [] [] 1 with ready := [] } : SchedState).context =
      (initState Context.empty [[]] [] [] 1).context :=
  orderItem_release_not_supported.2 _ _ rfl

/-- C9: in every forward execution — any starters, activation table, event
schedule and bound `m` — the in-flight map never holds more than `m` entries
at any step; when the bound is reached the ready queue is not drained (a step
only appends to it); and the default bound is 1000. -/
theorem max_inflight_never_exceeded :
    (∀ (context : Context) (starters : List Coro) (nodes : NodeTable)
       (events : List ExecEvent) (m n : Nat),
       stepOutInflight
         (schedStepN n (.running (initState context starters nodes events m))) ≤ m) ∧
    (∀ (s s' : SchedState), s.maxInflight ≤ s.inflight.length →
       schedStep s = .running s' → ∃ tail, s'.ready = s.ready ++ tail) ∧
    defaultMaxInflight = 1000 := by
  refine ⟨?_, ?_, rfl⟩
  · intro context starters nodes events m n
    have hinit : InflightInv m (.running (initState context starters nodes events m)) :=
      ⟨Nat.zero_le _, rfl⟩
    exact inflightInv_le (schedStepN_inflightInv m n _ hinit)
  · intro s s' hfull h
    exact schedStep_no_drain_when_full hfull h

/-- Witness for the back-pressure conjunct of the in-flight bound theorem at
a concrete saturated state (bound 1, one task in flight): the step consumes
the pending FAILED event and only appends to the ready queue. -/
theorem max_inflight_never_exceeded_witness :
    ∃ s' : SchedState, schedStep saturatedState = .running s' ∧
      ∃ tail, s'.ready = saturatedState.ready ++ tail :=
  ⟨_, rfl, max_inflight_never_exceeded.2.1 saturatedState _ (by decide) rfl⟩

end Nahida
